import Mathlib

/-!
# Taskboard server: shallow embedding and verification

This file embeds the data model and the request handlers of the taskboard
server (`src/server.js`, current revision: the one with archive, comments and
document links) and proves the specified properties about them.

Modelling conventions:
* Timestamps and dates are integers (milliseconds since the epoch).  Within a
  single handler invocation the instant observed by `Date.now()` and
  `new Date()` is a single parameter `now`; the `id: Date.now() + 1` of the
  second activity entry of an update is `now + 1`.
* JavaScript `null` / an absent field is `Option.none`; string falsiness
  (`""` and absence both fail an `if (!x)` test) is checked explicitly.
* The JSON object `taskDocuments` is an association list keyed by task id.
  A `Data` value models the persisted snapshot; a handler that replies with
  an error before calling `saveData` leaves the snapshot unchanged, which is
  expressed by the handler returning `Except.error` carrying no state (see
  `stateAfter`).
* `uuidv4()` is a parameter `newId`.
-/

namespace Taskboard

/-- A task record, as built by `POST /api/tasks` and mutated by the other
handlers.  `archived_at := none` models the absence of the JSON key. -/
structure Task where
  id : String
  title : String
  description : String
  status : String
  priority : String
  project : String
  assignee : String
  due_date : Option Int
  created_at : Int
  updated_at : Int
  created_by : String
  archived_at : Option Int := none
deriving Repr, DecidableEq

/-- An activity entry as pushed onto `data.activity`.  The JS field `by` is
called `by_` here (`by` is reserved in Lean). -/
structure Activity where
  id : Int
  task_id : String
  action : String
  from_status : Option String := none
  to_status : Option String := none
  by_ : String
  note : String
  created_at : Int
deriving Repr, DecidableEq

/-- A comment as pushed onto `data.comments`. -/
structure Comment where
  id : String
  task_id : String
  text : String
  by_ : String
  created_at : Int
deriving Repr, DecidableEq

/-- A document link as stored in `data.taskDocuments[taskId]`. -/
structure DocLink where
  path : String
  title : Option String
  type : Option String
  linkedAt : Int
deriving Repr, DecidableEq

/-- The `taskDocuments` object: task id keyed association list. -/
abbrev DocMap := List (String × List DocLink)

/-- The in-memory document a handler works on after `loadData()`.
`taskDocuments` stays optional: `loadData` never backfills it, every use
site guards with `data.taskDocuments || {}`. -/
structure Data where
  tasks : List Task
  activity : List Activity
  archived : List Task
  comments : List Comment
  taskDocuments : Option DocMap
deriving Repr, DecidableEq

/-- An on-disk snapshot as parsed from `data.json`: the optional collections
may be absent. -/
structure Snapshot where
  tasks : List Task
  activity : List Activity
  archived : Option (List Task) := none
  comments : Option (List Comment) := none
  taskDocuments : Option DocMap := none
deriving Repr, DecidableEq

/-- `loadData()`: `none` models a missing `data.json`.  The default document
is `{ tasks: [], activity: [], archived: [], comments: [] }`; for an existing
snapshot, absent `archived` and `comments` are backfilled to `[]` and
`taskDocuments` is passed through as-is. -/
def loadData : Option Snapshot → Data
  | none =>
      { tasks := [], activity := [], archived := [], comments := []
        taskDocuments := none }
  | some s =>
      { tasks := s.tasks, activity := s.activity
        archived := s.archived.getD []
        comments := s.comments.getD []
        taskDocuments := s.taskDocuments }

/-- Error taxonomy of the handlers: 404, 400 and 409 responses. -/
inductive Err where
  | notFound
  | validation
  | conflict
deriving Repr, DecidableEq

/-- The persisted snapshot after a handler ran: an `Except.error` reply is
sent before `saveData`, so the snapshot is unchanged. -/
def stateAfter {β : Type} (d : Data) : Except Err (Data × β) → Data
  | .ok (d', _) => d'
  | .error _ => d

/-- `updates.updated_by || 'system'` and `req.body?.by || 'system'`:
falsy (absent or empty) actor strings default to `"system"`. -/
def byOf : Option String → String
  | some s => if s == "" then "system" else s
  | none => "system"

/-- `data.activity.filter(a => a.task_id === id)` (the embedded activity of
`GET /api/tasks/:id`). -/
def activityFor (d : Data) (id : String) : List Activity :=
  d.activity.filter (fun a => a.task_id == id)

/-- `(data.comments || []).filter(c => c.task_id === id)`. -/
def commentsFor (d : Data) (id : String) : List Comment :=
  d.comments.filter (fun c => c.task_id == id)

/-- `(data.taskDocuments || {})[id] || []`. -/
def linkedDocsFor (d : Data) (id : String) : List DocLink :=
  ((d.taskDocuments.getD []).lookup id).getD []

/-- `findIndex` followed by `splice(index, 1)`: removes the first element
satisfying `p` and returns it together with the remaining list. -/
def extractFirst {α : Type} (p : α → Bool) : List α → Option (α × List α)
  | [] => none
  | x :: xs =>
      if p x then some (x, xs)
      else (extractFirst p xs).map (fun yr => (yr.1, x :: yr.2))

/-- `tasks[taskIndex] = task` after a successful `findIndex`: replaces the
first element satisfying `p`. -/
def replaceFirst {α : Type} (p : α → Bool) (x : α) : List α → List α
  | [] => []
  | y :: ys => if p y then x :: ys else y :: replaceFirst p x ys

/-- `data.taskDocuments[id] = links`: object key assignment on the
association list (overwrite in place, or append a new key). -/
def setDocs (m : DocMap) (id : String) (v : List DocLink) : DocMap :=
  match m with
  | [] => [(id, v)]
  | kv :: rest => if kv.1 == id then (id, v) :: rest else kv :: setDocs rest id v

/-- The response of `GET /api/tasks/:id`: the task with embedded activity,
comments and linked documents. -/
structure TaskDetail where
  task : Task
  activity : List Activity
  comments : List Comment
  linkedDocuments : List DocLink
deriving Repr, DecidableEq

/-- `GET /api/tasks/:id`: looks the id up in the active collection only. -/
def getTask (d : Data) (id : String) : Except Err TaskDetail :=
  match d.tasks.find? (fun t => t.id == id) with
  | none => .error .notFound
  | some t => .ok ⟨t, activityFor d id, commentsFor d id, linkedDocsFor d id⟩

/-- The request body of `POST /api/tasks`.  `none` models an absent key. -/
structure CreateBody where
  title : Option String := none
  description : Option String := none
  status : Option String := none
  priority : Option String := none
  project : Option String := none
  assignee : Option String := none
  due_date : Option Int := none
  created_by : Option String := none
deriving Repr, DecidableEq

/-- `POST /api/tasks`: `if (!title)` is a 400; the created task takes
`status: reqStatus || 'backlog'`, destructuring defaults
`priority = 'normal'`, `project = 'general'`, `assignee = 'bom'`,
`created_by = 'bom'`, plus `description || ''` and `due_date || null`;
one `created` activity entry is pushed in the same save. -/
def createTask (d : Data) (b : CreateBody) (newId : String) (now : Int) :
    Except Err (Data × Task) :=
  let title := b.title.getD ""
  if title == "" then .error .validation
  else
    let created_by := b.created_by.getD "bom"
    let task : Task :=
      { id := newId
        title := title
        description := b.description.getD ""
        status := match b.status with
          | some s => if s == "" then "backlog" else s
          | none => "backlog"
        priority := b.priority.getD "normal"
        project := b.project.getD "general"
        assignee := b.assignee.getD "bom"
        due_date := b.due_date
        created_at := now
        updated_at := now
        created_by := created_by
        archived_at := none }
    let entry : Activity :=
      { id := now, task_id := newId, action := "created", by_ := created_by
        note := "Task created by " ++ created_by, created_at := now }
    .ok ({ d with tasks := d.tasks ++ [task]
                  activity := d.activity ++ [entry] }, task)

/-- The request body of `PATCH /api/tasks/:id`.  A `some` key is merged over
the task by `Object.assign`; `due_date : some none` models an explicit
`due_date: null`. -/
structure UpdateBody where
  title : Option String := none
  description : Option String := none
  status : Option String := none
  priority : Option String := none
  project : Option String := none
  assignee : Option String := none
  due_date : Option (Option Int) := none
  updated_by : Option String := none
deriving Repr, DecidableEq

/-- `updates.status && updates.status !== task.status`: the tracked new
status, when present, truthy and different from the current one. -/
def statusChange (t : Task) (u : UpdateBody) : Option String :=
  match u.status with
  | some s => if s != "" && s != t.status then some s else none
  | none => none

/-- `updates.due_date !== undefined && updates.due_date !== task.due_date`:
the tracked new due date (possibly `null`). -/
def dueChange (t : Task) (u : UpdateBody) : Option (Option Int) :=
  match u.due_date with
  | some dd => if dd != t.due_date then some dd else none
  | none => none

/-- `Object.assign(task, updates, { updated_at: now })` restricted to the
documented task fields. -/
def applyUpdates (t : Task) (u : UpdateBody) (now : Int) : Task :=
  { t with
    title := u.title.getD t.title
    description := u.description.getD t.description
    status := u.status.getD t.status
    priority := u.priority.getD t.priority
    project := u.project.getD t.project
    assignee := u.assignee.getD t.assignee
    due_date := u.due_date.getD t.due_date
    updated_at := now }

/-- `PATCH /api/tasks/:id`: 404 when the id is not active; pushes a `moved`
entry (id `now`) on a tracked status change, then an `updated` entry
(id `now + 1`) on a tracked due-date change, then merges the updates. -/
def updateTask (d : Data) (id : String) (u : UpdateBody) (now : Int) :
    Except Err (Data × Task) :=
  match d.tasks.find? (fun t => t.id == id) with
  | none => .error .notFound
  | some t =>
      let movedEntries : List Activity :=
        match statusChange t u with
        | some s =>
            [{ id := now, task_id := t.id, action := "moved"
               from_status := some t.status, to_status := some s
               by_ := byOf u.updated_by
               note := "Moved from " ++ t.status ++ " to " ++ s
               created_at := now }]
        | none => []
      let dueEntries : List Activity :=
        match dueChange t u with
        | some dd =>
            [{ id := now + 1, task_id := t.id, action := "updated"
               by_ := byOf u.updated_by
               note := match dd with
                 | some v => "Due date set to " ++ toString v
                 | none => "Due date removed"
               created_at := now }]
        | none => []
      let t' := applyUpdates t u now
      .ok ({ d with tasks := replaceFirst (fun x => x.id == id) t' d.tasks
                    activity := d.activity ++ movedEntries ++ dueEntries }, t')

/-- `DELETE /api/tasks/:id`: removes the first matching task from the active
collection, else from the archived one, else 404; filters the id out of
`activity` and `comments`.  `taskDocuments` is not touched. -/
def deleteTask (d : Data) (id : String) : Except Err Data :=
  match extractFirst (fun t => t.id == id) d.tasks with
  | some (_, rest) =>
      .ok { d with tasks := rest
                   activity := d.activity.filter (fun a => a.task_id != id)
                   comments := d.comments.filter (fun c => c.task_id != id) }
  | none =>
      match extractFirst (fun t => t.id == id) d.archived with
      | some (_, rest) =>
          .ok { d with archived := rest
                       activity := d.activity.filter (fun a => a.task_id != id)
                       comments := d.comments.filter (fun c => c.task_id != id) }
      | none => .error .notFound

/-- `PATCH /api/tasks/:id/archive`: splices the task out of the active
collection, stamps `archived_at` and `updated_at`, pushes it onto
`archived` and appends an `archived` activity entry. -/
def archiveTask (d : Data) (id : String) (actor : Option String) (now : Int) :
    Except Err (Data × Task) :=
  match extractFirst (fun t => t.id == id) d.tasks with
  | none => .error .notFound
  | some (t, rest) =>
      let t' := { t with archived_at := some now, updated_at := now }
      let entry : Activity :=
        { id := now, task_id := t.id, action := "archived", by_ := byOf actor
          note := "Task archived", created_at := now }
      .ok ({ d with tasks := rest
                    archived := d.archived ++ [t']
                    activity := d.activity ++ [entry] }, t')

/-- `POST /api/tasks/:id/restore`: splices the task out of the archived
collection, deletes `archived_at`, stamps `updated_at`, pushes it onto
`tasks` and appends a `restored` activity entry. -/
def restoreTask (d : Data) (id : String) (actor : Option String) (now : Int) :
    Except Err (Data × Task) :=
  match extractFirst (fun t => t.id == id) d.archived with
  | none => .error .notFound
  | some (t, rest) =>
      let t' := { t with archived_at := none, updated_at := now }
      let entry : Activity :=
        { id := now, task_id := t.id, action := "restored", by_ := byOf actor
          note := "Task restored from archive", created_at := now }
      .ok ({ d with archived := rest
                    tasks := d.tasks ++ [t']
                    activity := d.activity ++ [entry] }, t')

/-- `POST /api/tasks/:id/comments`: 404 when the id is not active, 400 on a
falsy text; appends the comment and a `commented` activity entry whose note
is the first 100 characters of the text. -/
def addComment (d : Data) (id : String) (text : Option String)
    (actor : Option String) (newId : String) (now : Int) :
    Except Err (Data × Comment) :=
  match d.tasks.find? (fun t => t.id == id) with
  | none => .error .notFound
  | some _ =>
      let txt := text.getD ""
      if txt == "" then .error .validation
      else
        let who := actor.getD "bom"
        let c : Comment :=
          { id := newId, task_id := id, text := txt, by_ := who
            created_at := now }
        let entry : Activity :=
          { id := now, task_id := id, action := "commented", by_ := who
            note := "Comment: " ++ txt.take 100, created_at := now }
        .ok ({ d with comments := d.comments ++ [c]
                      activity := d.activity ++ [entry] }, c)

/-- `POST /api/tasks/:id/documents`: 404 when the id is not active, 400 on a
falsy path, 409 when the path is already among the task's links; otherwise
pushes the link and a `linked` activity entry. -/
def linkDocument (d : Data) (id : String) (docPath : Option String)
    (title : Option String) (ty : Option String) (actor : Option String)
    (now : Int) : Except Err (Data × DocLink) :=
  match d.tasks.find? (fun t => t.id == id) with
  | none => .error .notFound
  | some t =>
      let p := docPath.getD ""
      if p == "" then .error .validation
      else
        let m := d.taskDocuments.getD []
        let links := (m.lookup id).getD []
        if links.any (fun l => l.path == p) then .error .conflict
        else
          let link : DocLink := { path := p, title := title, type := ty, linkedAt := now }
          let entry : Activity :=
            { id := now, task_id := t.id, action := "linked", by_ := byOf actor
              note := "Linked document: " ++
                (match title with
                 | some s => if s == "" then p else s
                 | none => p)
              created_at := now }
          .ok ({ d with taskDocuments := some (setDocs m id (links ++ [link]))
                        activity := d.activity ++ [entry] }, link)

/-- `priorityOrder[p] || 3` with `{ urgent: 1, high: 2, normal: 3, low: 4 }`. -/
def priorityRank (p : String) : Int :=
  if p == "urgent" then 1
  else if p == "high" then 2
  else if p == "normal" then 3
  else if p == "low" then 4
  else 3

/-- `a.due_date && new Date(a.due_date) < now ? 0 : 1` where `now` is the
start of the current day. -/
def overdueFlag (nowStart : Int) (t : Task) : Int :=
  match t.due_date with
  | some dd => if dd < nowStart then 0 else 1
  | none => 1

/-- The sort key implied by the comparator of `GET /api/tasks`:
overdue flag, then priority rank, then negated `updated_at`. -/
def sortKey (nowStart : Int) (t : Task) : Int × Int × Int :=
  (overdueFlag nowStart t, priorityRank t.priority, - t.updated_at)

/-- Lexicographic at-most on integer triples. -/
def lexLE (x y : Int × Int × Int) : Bool :=
  decide (x.1 < y.1) ||
    (decide (x.1 = y.1) &&
      (decide (x.2.1 < y.2.1) ||
        (decide (x.2.1 = y.2.1) && decide (x.2.2 ≤ y.2.2))))

/-- `cmp(a, b) <= 0` for the comparator of `GET /api/tasks`. -/
def taskLE (nowStart : Int) (a b : Task) : Bool :=
  lexLE (sortKey nowStart a) (sortKey nowStart b)

/-- The filter step of `GET /api/tasks`: truthy `project` and `status`
query parameters are exact-match AND-combined filters. -/
def filterTasks (d : Data) (project status : Option String) : List Task :=
  let ts := d.tasks
  let ts := match project with
    | some p => if p == "" then ts else ts.filter (fun t => t.project == p)
    | none => ts
  match status with
  | some s => if s == "" then ts else ts.filter (fun t => t.status == s)
  | none => ts

/-- `GET /api/tasks`: filter, then sort with the overdue/priority/updated
comparator. -/
def listTasks (d : Data) (project status : Option String) (nowStart : Int) :
    List Task :=
  (filterTasks d project status).mergeSort (taskLE nowStart)

/-- `GET /api/stats`: active total, per-status counts over the five known
statuses, archived count. -/
def stats (d : Data) : Int × List (String × Int) :=
  ((d.tasks.length : Int),
    [("backlog", (d.tasks.filter (fun t => t.status == "backlog")).length)
    , ("todo", (d.tasks.filter (fun t => t.status == "todo")).length)
    , ("in_progress", (d.tasks.filter (fun t => t.status == "in-progress")).length)
    , ("review", (d.tasks.filter (fun t => t.status == "review")).length)
    , ("done", (d.tasks.filter (fun t => t.status == "done")).length)
    , ("archived", (d.archived.length : Int))])

/-- Connection lifecycle of the broadcast hub (§4.3 of the spec). -/
inductive ConnState where
  | connecting
  | opened
  | closed
deriving Repr, DecidableEq

/-- A subscriber connection with its hub-side handle. -/
structure Conn where
  cid : Nat
  state : ConnState
deriving Repr, DecidableEq

/-- The broadcast hub: the set of live subscriber connections. -/
structure Hub where
  conns : List Conn
deriving Repr, DecidableEq

/-- Modelled from the spec: the broadcast hub is not part of the sources
under `src/`.  `broadcast(event, excludeConnection?)` delivers the event to
every currently Open connection except the excluded one (if any); the result
is the delivery list (receiver id, event). -/
def broadcast (h : Hub) (ev : String) (exclude : Option Nat) :
    List (Nat × String) :=
  (h.conns.filter
      (fun c => c.state == ConnState.opened && !(exclude == some c.cid))).map
    (fun c => (c.cid, ev))

/-- Modelled from the spec: `notifyMutation` broadcasts a mutation event to
all connections unconditionally — no exclusion. -/
def notifyMutation (h : Hub) (ev : String) : List (Nat × String) :=
  broadcast h ev none

/-- Modelled from the spec: a typing notification is broadcast to all
*other* open connections — the originating connection is excluded. -/
def typingBroadcast (h : Hub) (ev : String) (origin : Nat) :
    List (Nat × String) :=
  broadcast h ev (some origin)

/-- Spec wording: a task is overdue when its due date is set and strictly
earlier than the start of the current day. -/
def isOverdue (nowStart : Int) (t : Task) : Prop :=
  ∃ dd, t.due_date = some dd ∧ dd < nowStart

/-- Spec wording of the list-ordering precedence, written independently of
the comparator: `a` may come before `b` when `a` is overdue and `b` is not,
or they agree on overdueness and `a` has strictly smaller urgency rank, or
equal rank and `a` was updated at least as recently as `b`. -/
def specPrecedes (nowStart : Int) (a b : Task) : Prop :=
  (isOverdue nowStart a ∧ ¬ isOverdue nowStart b) ∨
    ((isOverdue nowStart a ↔ isOverdue nowStart b) ∧
      (priorityRank a.priority < priorityRank b.priority ∨
        (priorityRank a.priority = priorityRank b.priority ∧
          b.updated_at ≤ a.updated_at)))

/-! ### Concrete fixtures used by counterexamples and witnesses -/

/-- A plain active task. -/
def exTask : Task :=
  { id := "t1", title := "A", description := "", status := "todo"
    priority := "normal", project := "general", assignee := "bom"
    due_date := none, created_at := 0, updated_at := 0, created_by := "bom" }

/-- A snapshot holding just `exTask`. -/
def exData : Data :=
  { tasks := [exTask], activity := [], archived := [], comments := []
    taskDocuments := none }

/-- The link created by linking `doc.md` to `exTask` at time 5. -/
def exDocLink : DocLink :=
  { path := "doc.md", title := none, type := none, linkedAt := 5 }

/-- The snapshot after `linkDocument exData "t1" (some "doc.md") _ _ _ 5`. -/
def exLinked : Data :=
  { tasks := [exTask]
    activity := [{ id := 5, task_id := "t1", action := "linked"
                   by_ := "system", note := "Linked document: doc.md"
                   created_at := 5 }]
    archived := [], comments := []
    taskDocuments := some [("t1", [exDocLink])] }

/-- A snapshot with one task that carries an activity entry, a comment and a
document link — input of the deletion counterexample. -/
def exDelData : Data :=
  { tasks := [exTask]
    activity := [{ id := 1, task_id := "t1", action := "created"
                   by_ := "bom", note := "Task created by bom"
                   created_at := 1 }]
    archived := []
    comments := [{ id := "c1", task_id := "t1", text := "hi", by_ := "bom"
                   created_at := 2 }]
    taskDocuments := some [("t1", [exDocLink])] }

/-- What `deleteTask exDelData "t1"` actually produces: the document links
survive under the deleted task's key. -/
def exDelAfter : Data :=
  { tasks := [], activity := [], archived := [], comments := []
    taskDocuments := some [("t1", [exDocLink])] }

/-- Overdue (due 2020-01-01) but low priority. -/
def taskOverdueLow : Task :=
  { exTask with id := "a", priority := "low"
                due_date := some 1577836800000, updated_at := 1 }

/-- Far-future due date (2999-01-01) but urgent priority. -/
def taskFutureUrgent : Task :=
  { exTask with id := "b", priority := "urgent"
                due_date := some 32472144000000, updated_at := 2 }

/-- Listing input: the urgent task stored first, so the sort must move the
overdue one ahead of it. -/
def exListData : Data :=
  { tasks := [taskFutureUrgent, taskOverdueLow], activity := []
    archived := [], comments := [], taskDocuments := none }

/-- Start of a day in 2026: after 2020-01-01, before 2999-01-01. -/
def exNow : Int := 1791676800000

/-- A task sitting in the archived collection. -/
def exArchived : Task :=
  { exTask with id := "t9", archived_at := some 3 }

/-- A snapshot where `"t9"` is archived and not active. -/
def exArchData : Data :=
  { tasks := [], activity := [], archived := [exArchived], comments := []
    taskDocuments := none }

/-- A hub with two open connections. -/
def exHub : Hub :=
  ⟨[⟨1, ConnState.opened⟩, ⟨2, ConnState.opened⟩]⟩

end Taskboard

namespace Taskboard

/-! ## Helper lemmas -/

theorem extractFirst_eq_none_iff {α : Type} (p : α → Bool) (l : List α) :
    extractFirst p l = none ↔ ∀ x ∈ l, p x = false := by
  induction l with
  | nil => simp [extractFirst]
  | cons a as ih =>
    cases h : p a with
    | true => simp [extractFirst, h]
    | false => simp [extractFirst, h, Option.map_eq_none', ih]

theorem extractFirst_eq_some {α : Type} (p : α → Bool) (l : List α)
    (x : α) (rest : List α) (h : extractFirst p l = some (x, rest)) :
    p x = true ∧ ∃ l1 l2, l = l1 ++ x :: l2 ∧ rest = l1 ++ l2 ∧
      ∀ y ∈ l1, p y = false := by
  induction l generalizing rest with
  | nil => simp [extractFirst] at h
  | cons a as ih =>
    cases hp : p a with
    | true =>
      rw [extractFirst, if_pos hp] at h
      obtain ⟨rfl, rfl⟩ := Prod.mk.injEq .. ▸ Option.some.inj h
      exact ⟨hp, [], as, rfl, rfl, by simp⟩
    | false =>
      rw [extractFirst, if_neg (by simp [hp])] at h
      obtain ⟨⟨y, ys⟩, he, heq⟩ := Option.map_eq_some'.mp h
      obtain ⟨rfl, rfl⟩ := Prod.mk.injEq .. ▸ heq
      obtain ⟨hpx, l1, l2, hl, hr, hall⟩ := ih ys he
      refine ⟨hpx, a :: l1, l2, by simp [hl], by simp [hr], ?_⟩
      intro z hz
      rcases List.mem_cons.mp hz with rfl | hz
      · exact hp
      · exact hall z hz

theorem extractFirst_rest_eq_filter {α : Type} (p : α → Bool) (l : List α)
    (x : α) (rest : List α) (h : extractFirst p l = some (x, rest))
    (hc : l.countP p ≤ 1) : rest = l.filter (fun a => !p a) := by
  obtain ⟨hpx, l1, l2, hl, hr, hall⟩ := extractFirst_eq_some p l x rest h
  subst hl
  subst hr
  have h10 : l1.countP p = 0 :=
    List.countP_eq_zero.mpr (fun a ha => by simp [hall a ha])
  have hc2 : l2.countP p = 0 := by
    rw [List.countP_append, List.countP_cons_of_pos p l2 hpx, h10] at hc
    omega
  have h1 : l1.filter (fun a => !p a) = l1 :=
    List.filter_eq_self.mpr (fun a ha => by simp [hall a ha])
  have h2 : l2.filter (fun a => !p a) = l2 :=
    List.filter_eq_self.mpr
      (fun a ha => by simp [List.countP_eq_zero.mp hc2 a ha])
  rw [List.filter_append, List.filter_cons, h1, h2]
  simp [hpx]

end Taskboard

namespace Taskboard

theorem nodup_map_countP_le_one {α : Type} (f : α → String) (l : List α)
    (h : (l.map f).Nodup) (b : String) :
    l.countP (fun x => f x == b) ≤ 1 := by
  induction l with
  | nil => simp
  | cons a as ih =>
    rw [List.map_cons, List.nodup_cons] at h
    obtain ⟨hna, hnd⟩ := h
    rw [List.countP_cons]
    cases hfa : (f a == b) with
    | false => simpa using ih hnd
    | true =>
      have hab : f a = b := by simpa using hfa
      have h0 : as.countP (fun x => f x == b) = 0 := by
        refine List.countP_eq_zero.mpr (fun x hx => ?_)
        simp only [Bool.not_eq_true, beq_eq_false_iff_ne]
        intro he
        exact hna (hab ▸ he ▸ List.mem_map_of_mem f hx)
      simp [h0]

theorem filter_key_elim {α : Type} (key : α → String) (id : String)
    (l : List α) :
    (l.filter (fun a => key a != id)).filter (fun a => key a == id) = [] := by
  rw [List.filter_filter]
  refine List.filter_eq_nil_iff.mpr (fun a _ => ?_)
  cases h : (key a == id) with
  | true => simp [h, eq_of_beq h]
  | false => simp [h]

theorem extractFirst_append_singleton {α : Type} (p : α → Bool) (l : List α)
    (x : α) (hl : ∀ y ∈ l, p y = false) (hx : p x = true) :
    extractFirst p (l ++ [x]) = some (x, l) := by
  induction l with
  | nil => simp [extractFirst, hx]
  | cons a as ih =>
    have ha : p a = false := hl a (List.mem_cons_self a as)
    have ih' := ih (fun y hy => hl y (List.mem_cons_of_mem a hy))
    simp [extractFirst, ha, ih']

theorem lookup_setDocs (m : DocMap) (id : String) (v : List DocLink) :
    (setDocs m id v).lookup id = some v := by
  induction m with
  | nil => simp [setDocs, List.lookup]
  | cons kv rest ih =>
    cases h : (kv.1 == id) with
    | true => simp [setDocs, h, List.lookup]
    | false =>
      have h' : (id == kv.1) = false := by
        rw [beq_eq_false_iff_ne] at h ⊢
        exact fun e => h e.symm
      simp [setDocs, h, List.lookup, h', ih]

theorem overdueFlag_eq_zero_iff (n : Int) (t : Task) :
    overdueFlag n t = 0 ↔ isOverdue n t := by
  unfold overdueFlag isOverdue
  cases hd : t.due_date with
  | none => simp
  | some dd =>
    by_cases h : dd < n <;> simp [h]

theorem overdueFlag_cases (n : Int) (t : Task) :
    overdueFlag n t = 0 ∨ overdueFlag n t = 1 := by
  unfold overdueFlag
  cases t.due_date with
  | none => simp
  | some dd => by_cases h : dd < n <;> simp [h]

theorem taskLE_total (n : Int) (a b : Task) :
    (taskLE n a b || taskLE n b a) = true := by
  simp only [taskLE, lexLE, Bool.or_eq_true, Bool.and_eq_true,
    decide_eq_true_eq]
  omega

theorem taskLE_trans (n : Int) (a b c : Task) (h1 : taskLE n a b = true)
    (h2 : taskLE n b c = true) : taskLE n a c = true := by
  simp only [taskLE, lexLE, Bool.or_eq_true, Bool.and_eq_true,
    decide_eq_true_eq] at h1 h2 ⊢
  omega

theorem taskLE_imp_specPrecedes (n : Int) (a b : Task)
    (h : taskLE n a b = true) : specPrecedes n a b := by
  simp only [taskLE, lexLE, sortKey, Bool.or_eq_true, Bool.and_eq_true,
    decide_eq_true_eq] at h
  unfold specPrecedes
  rcases overdueFlag_cases n a with ha | ha <;>
    rcases overdueFlag_cases n b with hb | hb
  · refine Or.inr ⟨?_, ?_⟩
    · rw [← overdueFlag_eq_zero_iff, ← overdueFlag_eq_zero_iff, ha, hb]
    · rcases h with h | ⟨_, h⟩
      · omega
      · rcases h with h | ⟨h, h'⟩
        · exact Or.inl h
        · exact Or.inr ⟨h, by omega⟩
  · refine Or.inl ⟨?_, ?_⟩
    · exact (overdueFlag_eq_zero_iff n a).mp ha
    · rw [← overdueFlag_eq_zero_iff, hb]
      omega
  · exfalso
    omega
  · refine Or.inr ⟨?_, ?_⟩
    · rw [← overdueFlag_eq_zero_iff, ← overdueFlag_eq_zero_iff, ha, hb]
    · rcases h with h | ⟨_, h⟩
      · omega
      · rcases h with h | ⟨h, h'⟩
        · exact Or.inl h
        · exact Or.inr ⟨h, by omega⟩

end Taskboard

namespace Taskboard

/-! ## Claim theorems -/

/-- C2, counterexample: `loadData` with no snapshot does NOT return a
document with `taskDocuments` backfilled to the empty object, and an
existing snapshot lacking `taskDocuments` is NOT backfilled either — the
field stays absent (`none`), unlike `archived` and `comments`. -/
theorem loadData_counterexample :
    (loadData none).taskDocuments ≠ some [] ∧
    (loadData none).taskDocuments = none ∧
    (loadData (some { tasks := [], activity := [] })).taskDocuments
      ≠ some [] := by
  refine ⟨?_, rfl, ?_⟩ <;> simp [loadData]

/-- C2 (amended): `load()` with no existing snapshot returns the default
document `{tasks: [], activity: [], archived: [], comments: []}` with
`taskDocuments` left absent; in an existing snapshot, absent `archived` and
`comments` are backfilled to empty, while `taskDocuments` is returned
exactly as stored — absent stays absent and is defaulted to the empty
object only at its use sites. -/
theorem loadData_spec (s : Snapshot) :
    loadData none =
      { tasks := [], activity := [], archived := [], comments := []
        taskDocuments := none } ∧
    (loadData (some s)).tasks = s.tasks ∧
    (loadData (some s)).activity = s.activity ∧
    (s.archived = none → (loadData (some s)).archived = []) ∧
    (∀ l, s.archived = some l → (loadData (some s)).archived = l) ∧
    (s.comments = none → (loadData (some s)).comments = []) ∧
    (∀ l, s.comments = some l → (loadData (some s)).comments = l) ∧
    (loadData (some s)).taskDocuments = s.taskDocuments := by
  refine ⟨rfl, rfl, rfl, ?_, ?_, ?_, ?_, rfl⟩ <;>
    first
      | (intro h; simp [loadData, h])
      | (intro l h; simp [loadData, h])

/-- Witness for `loadData_spec` at the empty snapshot. -/
theorem loadData_spec_witness :
    (loadData (some { tasks := [], activity := [] })).archived = [] ∧
    (loadData (some { tasks := [], activity := [] })).comments = [] :=
  ⟨(loadData_spec { tasks := [], activity := [] }).2.2.2.1 rfl,
   (loadData_spec { tasks := [], activity := [] }).2.2.2.2.2.1 rfl⟩

end Taskboard

namespace Taskboard

/-- C7: for every request body whose title is blank or absent, `createTask`
fails with ValidationError; since the error reply is sent before `saveData`,
no activity entry and no record are persisted — the stored snapshot is
unchanged. -/
theorem createTask_blank_title (d : Data) (b : CreateBody) (newId : String)
    (now : Int) (h : b.title = none ∨ b.title = some "") :
    createTask d b newId now = .error .validation ∧
    stateAfter d (createTask d b newId now) = d := by
  have hval : createTask d b newId now = .error .validation := by
    rcases h with h | h <;> simp [createTask, h]
  exact ⟨hval, by rw [hval]; rfl⟩

/-- Witness for `createTask_blank_title`: a concrete blank-title request. -/
theorem createTask_blank_title_witness :
    createTask exData { title := some "" } "n1" 9 = .error .validation ∧
    stateAfter exData (createTask exData { title := some "" } "n1" 9)
      = exData :=
  createTask_blank_title exData { title := some "" } "n1" 9 (Or.inr rfl)

/-- C8: every valid create request produces a task whose unset fields take
the documented defaults — status `backlog` unless explicitly provided,
priority `normal`, project `general`, due_date null, created_at equal to
updated_at — and exactly one `created` activity entry is appended in the
same save. -/
theorem createTask_defaults (d : Data) (b : CreateBody) (newId : String)
    (now : Int) (ttl : String) (h1 : b.title = some ttl) (h2 : ttl ≠ "") :
    ∃ d' t, createTask d b newId now = .ok (d', t) ∧
      t.id = newId ∧ t.title = ttl ∧
      (b.status = none → t.status = "backlog") ∧
      (∀ s, b.status = some s → s ≠ "" → t.status = s) ∧
      (b.priority = none → t.priority = "normal") ∧
      (b.project = none → t.project = "general") ∧
      (b.due_date = none → t.due_date = none) ∧
      t.created_at = now ∧ t.updated_at = now ∧
      t.created_at = t.updated_at ∧
      d'.tasks = d.tasks ++ [t] ∧
      (∃ e : Activity, d'.activity = d.activity ++ [e] ∧
        e.action = "created" ∧ e.task_id = newId) ∧
      d'.archived = d.archived ∧ d'.comments = d.comments ∧
      d'.taskDocuments = d.taskDocuments := by
  have hbeq : (ttl == "") = false := by
    rw [beq_eq_false_iff_ne]
    exact h2
  have hc : createTask d b newId now = .ok
      ({ d with
          tasks := d.tasks ++
            [{ id := newId, title := ttl
               description := b.description.getD ""
               status := match b.status with
                 | some s => if s == "" then "backlog" else s
                 | none => "backlog"
               priority := b.priority.getD "normal"
               project := b.project.getD "general"
               assignee := b.assignee.getD "bom"
               due_date := b.due_date, created_at := now, updated_at := now
               created_by := b.created_by.getD "bom", archived_at := none }]
          activity := d.activity ++
            [{ id := now, task_id := newId, action := "created"
               by_ := b.created_by.getD "bom"
               note := "Task created by " ++ b.created_by.getD "bom"
               created_at := now }] },
        { id := newId, title := ttl
          description := b.description.getD ""
          status := match b.status with
            | some s => if s == "" then "backlog" else s
            | none => "backlog"
          priority := b.priority.getD "normal"
          project := b.project.getD "general"
          assignee := b.assignee.getD "bom"
          due_date := b.due_date, created_at := now, updated_at := now
          created_by := b.created_by.getD "bom", archived_at := none }) := by
    simp only [createTask, h1, Option.getD_some, hbeq, Bool.false_eq_true,
      if_false]
  refine ⟨_, _, hc, rfl, rfl, ?_, ?_, ?_, ?_, ?_, rfl, rfl, rfl, rfl,
    ⟨_, rfl, rfl, rfl⟩, rfl, rfl, rfl⟩
  · intro h
    simp [h]
  · intro s hs hs'
    simp [hs, hs']
  · intro h
    simp [h]
  · intro h
    simp [h]
  · intro h
    simp [h]

/-- Witness for `createTask_defaults`: creating a task titled `"A"` with
everything else unset. -/
theorem createTask_defaults_witness :
    ∃ d' t, createTask exData { title := some "A" } "n2" 9 = .ok (d', t) ∧
      t.id = "n2" ∧ t.title = "A" ∧
      (({ title := some "A"} : CreateBody).status = none →
        t.status = "backlog") ∧
      (∀ s, ({ title := some "A"} : CreateBody).status = some s → s ≠ "" →
        t.status = s) ∧
      (({ title := some "A"} : CreateBody).priority = none →
        t.priority = "normal") ∧
      (({ title := some "A"} : CreateBody).project = none →
        t.project = "general") ∧
      (({ title := some "A"} : CreateBody).due_date = none →
        t.due_date = none) ∧
      t.created_at = 9 ∧ t.updated_at = 9 ∧
      t.created_at = t.updated_at ∧
      d'.tasks = exData.tasks ++ [t] ∧
      (∃ e : Activity, d'.activity = exData.activity ++ [e] ∧
        e.action = "created" ∧ e.task_id = "n2") ∧
      d'.archived = exData.archived ∧ d'.comments = exData.comments ∧
      d'.taskDocuments = exData.taskDocuments :=
  createTask_defaults exData { title := some "A" } "n2" 9 "A" rfl
    (by decide)

end Taskboard

namespace Taskboard

/-- C9: a mutation event is delivered to every currently Open connection
with no connection skipped (the originating one included, since
`notifyMutation` excludes nobody), whereas a typing event excludes exactly
the originating connection: every other Open connection receives it. -/
theorem broadcast_mutation_vs_typing (h : Hub) (ev : String) (origin : Nat)
    (c : Conn) (hc : c ∈ h.conns) (ho : c.state = ConnState.opened) :
    (c.cid, ev) ∈ notifyMutation h ev ∧
    ((c.cid, ev) ∈ typingBroadcast h ev origin ↔ c.cid ≠ origin) := by
  constructor
  · refine List.mem_map.mpr ⟨c, List.mem_filter.mpr ⟨hc, ?_⟩, rfl⟩
    simp [ho]
  · constructor
    · intro hmem heq
      obtain ⟨c', hc', hpair⟩ := List.mem_map.mp hmem
      obtain ⟨_, hcond⟩ := List.mem_filter.mp hc'
      have hcid : c'.cid = c.cid := by
        simpa using congrArg Prod.fst hpair
      have hne : origin ≠ c'.cid := by
        have h2 := ((Bool.and_eq_true _ _).mp hcond).2
        simpa using h2
      exact hne (hcid.trans heq).symm
    · intro hne
      refine List.mem_map.mpr ⟨c, List.mem_filter.mpr ⟨hc, ?_⟩, rfl⟩
      simp [ho]
      exact fun e => hne e.symm

/-- Witness for `broadcast_mutation_vs_typing`: a hub with two open
connections, typing originated by connection 1, observed at connection 2. -/
theorem broadcast_mutation_vs_typing_witness :
    ((2 : Nat), "t") ∈ notifyMutation exHub "t" ∧
    (((2 : Nat), "t") ∈ typingBroadcast exHub "t" 1 ↔ (2 : Nat) ≠ 1) :=
  broadcast_mutation_vs_typing exHub "t" 1 ⟨2, ConnState.opened⟩
    (by simp [exHub]) rfl

/-- C10: a task id that sits in the archived collection and not in the
active one is invisible to `getTask`, `updateTask`, `addComment` and
`linkDocument`: each searches only `data.tasks` and fails with NotFound. -/
theorem archived_task_inaccessible (d : Data) (id : String) (u : UpdateBody)
    (txt actor docPath ti ty : Option String) (newId : String) (now : Int)
    (_harch : ∃ t ∈ d.archived, t.id = id)
    (hact : ∀ t ∈ d.tasks, t.id ≠ id) :
    getTask d id = .error .notFound ∧
    updateTask d id u now = .error .notFound ∧
    addComment d id txt actor newId now = .error .notFound ∧
    linkDocument d id docPath ti ty actor now = .error .notFound := by
  have hfind : d.tasks.find? (fun t => t.id == id) = none :=
    List.find?_eq_none.mpr (fun x hx => by simp [hact x hx])
  exact ⟨by simp [getTask, hfind], by simp [updateTask, hfind],
    by simp [addComment, hfind], by simp [linkDocument, hfind]⟩

/-- Witness for `archived_task_inaccessible`: the snapshot where `"t9"` is
archived only. -/
theorem archived_task_inaccessible_witness :
    getTask exArchData "t9" = .error .notFound ∧
    updateTask exArchData "t9" {} 4 = .error .notFound ∧
    addComment exArchData "t9" (some "x") none "c9" 4 = .error .notFound ∧
    linkDocument exArchData "t9" (some "d.md") none none none 4
      = .error .notFound :=
  archived_task_inaccessible exArchData "t9" {} (some "x") none
    (some "d.md") none none "c9" 4 ⟨exArchived, by simp [exArchData], rfl⟩
    (by simp [exArchData])

end Taskboard

namespace Taskboard

/-- C1, counterexample: deleting task `"t1"` succeeds and removes its
activity and comments, yet the document links stored under
`taskDocuments["t1"]` survive untouched — so deletion does NOT cascade to
document links as the claim states. -/
theorem deleteTask_counterexample :
    deleteTask exDelData "t1" = .ok exDelAfter ∧
    exDelAfter.taskDocuments = exDelData.taskDocuments ∧
    linkedDocsFor exDelAfter "t1" = [exDocLink] ∧
    linkedDocsFor exDelAfter "t1" ≠ [] :=
  ⟨rfl, rfl, rfl, by decide⟩

/-- C1 (amended): for ids with the disjointness invariant (no id occurs
twice across the active and archived collections), `deleteTask` fails with
NotFound exactly when the id is absent from both collections; on success it
removes the task from whichever collection contains it and removes every
activity entry and every comment referencing the id — listing activity for
the id afterwards returns the empty sequence — but it leaves the
`taskDocuments` mapping (the document links) unchanged. -/
theorem deleteTask_spec (d : Data) (id : String)
    (hnd : ((d.tasks ++ d.archived).map Task.id).Nodup) :
    (deleteTask d id = .error .notFound ↔
      (∀ t ∈ d.tasks, t.id ≠ id) ∧ (∀ t ∈ d.archived, t.id ≠ id)) ∧
    ∀ d', deleteTask d id = .ok d' →
      d'.tasks = d.tasks.filter (fun t => !(t.id == id)) ∧
      d'.archived = d.archived.filter (fun t => !(t.id == id)) ∧
      activityFor d' id = [] ∧
      commentsFor d' id = [] ∧
      d'.taskDocuments = d.taskDocuments := by
  rw [List.map_append, List.nodup_append] at hnd
  obtain ⟨hndT, hndA, hdisj⟩ := hnd
  have hctT : d.tasks.countP (fun t => t.id == id) ≤ 1 :=
    nodup_map_countP_le_one Task.id d.tasks hndT id
  have hctA : d.archived.countP (fun t => t.id == id) ≤ 1 :=
    nodup_map_countP_le_one Task.id d.archived hndA id
  cases heT : extractFirst (fun t => t.id == id) d.tasks with
  | some pr =>
    obtain ⟨x, rest⟩ := pr
    obtain ⟨hpx, _, _, _, _, _⟩ :=
      extractFirst_eq_some (fun t => t.id == id) d.tasks x rest heT
    have hxid : x.id = id := by simpa using hpx
    have hxmem : x ∈ d.tasks := by
      obtain ⟨_, l1, l2, hl, _, _⟩ :=
        extractFirst_eq_some (fun t => t.id == id) d.tasks x rest heT
      rw [hl]
      simp
    have hArest : ∀ t ∈ d.archived, t.id ≠ id := by
      intro t ht he
      exact hdisj (hxid ▸ List.mem_map_of_mem Task.id hxmem)
        (he ▸ List.mem_map_of_mem Task.id ht)
    constructor
    · simp only [deleteTask, heT]
      constructor
      · intro h
        exact absurd h (by simp)
      · intro ⟨hT, _⟩
        exact absurd hxid (hT x hxmem)
    · intro d' hd'
      rw [deleteTask, heT] at hd'
      obtain rfl := (Except.ok.inj hd').symm
      refine ⟨?_, ?_, ?_, ?_, rfl⟩
      · exact extractFirst_rest_eq_filter _ d.tasks x rest heT hctT
      · exact (List.filter_eq_self.mpr
          (fun t ht => by simp [hArest t ht])).symm
      · exact filter_key_elim Activity.task_id id d.activity
      · exact filter_key_elim Comment.task_id id d.comments
  | none =>
    have hTnone : ∀ t ∈ d.tasks, t.id ≠ id := by
      intro t ht
      have := (extractFirst_eq_none_iff (fun t => t.id == id) d.tasks).mp
        heT t ht
      simpa using this
    cases heA : extractFirst (fun t => t.id == id) d.archived with
    | some pr =>
      obtain ⟨x, rest⟩ := pr
      have hxmem : x ∈ d.archived := by
        obtain ⟨_, l1, l2, hl, _, _⟩ :=
          extractFirst_eq_some (fun t => t.id == id) d.archived x rest heA
        rw [hl]
        simp
      have hxid : x.id = id := by
        have := (extractFirst_eq_some (fun t => t.id == id) d.archived
          x rest heA).1
        simpa using this
      constructor
      · simp only [deleteTask, heT, heA]
        constructor
        · intro h
          exact absurd h (by simp)
        · intro ⟨_, hA⟩
          exact absurd hxid (hA x hxmem)
      · intro d' hd'
        rw [deleteTask, heT, heA] at hd'
        obtain rfl := (Except.ok.inj hd').symm
        refine ⟨?_, ?_, ?_, ?_, rfl⟩
        · exact (List.filter_eq_self.mpr
            (fun t ht => by simp [hTnone t ht])).symm
        · exact extractFirst_rest_eq_filter _ d.archived x rest heA hctA
        · exact filter_key_elim Activity.task_id id d.activity
        · exact filter_key_elim Comment.task_id id d.comments
    | none =>
      have hAnone : ∀ t ∈ d.archived, t.id ≠ id := by
        intro t ht
        have := (extractFirst_eq_none_iff (fun t => t.id == id)
          d.archived).mp heA t ht
        simpa using this
      constructor
      · simp only [deleteTask, heT, heA]
        exact ⟨fun _ => ⟨hTnone, hAnone⟩, fun _ => trivial⟩
      · intro d' hd'
        rw [deleteTask, heT, heA] at hd'
        exact absurd hd' (by simp)

/-- Witness for `deleteTask_spec`: deleting `"t1"` from `exDelData`. -/
theorem deleteTask_spec_witness :
    (deleteTask exDelData "t1" = .error .notFound ↔
      (∀ t ∈ exDelData.tasks, t.id ≠ "t1") ∧
      (∀ t ∈ exDelData.archived, t.id ≠ "t1")) ∧
    ∀ d', deleteTask exDelData "t1" = .ok d' →
      d'.tasks = exDelData.tasks.filter (fun t => !(t.id == "t1")) ∧
      d'.archived = exDelData.archived.filter (fun t => !(t.id == "t1")) ∧
      activityFor d' "t1" = [] ∧
      commentsFor d' "t1" = [] ∧
      d'.taskDocuments = exDelData.taskDocuments :=
  deleteTask_spec exDelData "t1" (by decide)

end Taskboard

namespace Taskboard

/-- C3: for an existing active task and an update carrying a (nonempty)
status different from the current one, `updateTask` appends exactly one
`moved` entry recording from and to; when the same call also changes
due_date (including to null) it appends a second, distinct `updated` entry
whose id (`now + 1`) differs from the `moved` one (`now`); and for any
update body at all the merged task's `updated_at` is refreshed to `now`. -/
theorem updateTask_moved_and_updated (d : Data) (id : String)
    (u : UpdateBody) (now : Int) (t : Task)
    (hfind : d.tasks.find? (fun x => x.id == id) = some t)
    (s : String) (hs : u.status = some s) (hs1 : s ≠ "")
    (hs2 : s ≠ t.status) :
    (∀ (v : UpdateBody) d' t', updateTask d id v now = .ok (d', t') →
      t'.updated_at = now) ∧
    (u.due_date = none ∨ u.due_date = some t.due_date →
      ∃ d' t', updateTask d id u now = .ok (d', t') ∧
        d'.activity = d.activity ++
          [{ id := now, task_id := t.id, action := "moved"
             from_status := some t.status, to_status := some s
             by_ := byOf u.updated_by
             note := "Moved from " ++ t.status ++ " to " ++ s
             created_at := now }] ∧
        t'.status = s) ∧
    (∀ dd, u.due_date = some dd → dd ≠ t.due_date →
      ∃ d' t', updateTask d id u now = .ok (d', t') ∧
        d'.activity = d.activity ++
          [{ id := now, task_id := t.id, action := "moved"
             from_status := some t.status, to_status := some s
             by_ := byOf u.updated_by
             note := "Moved from " ++ t.status ++ " to " ++ s
             created_at := now },
           { id := now + 1, task_id := t.id, action := "updated"
             by_ := byOf u.updated_by
             note := match dd with
               | some v => "Due date set to " ++ toString v
               | none => "Due date removed"
             created_at := now }] ∧
        ({ id := now, task_id := t.id, action := "moved"
           from_status := some t.status, to_status := some s
           by_ := byOf u.updated_by
           note := "Moved from " ++ t.status ++ " to " ++ s
           created_at := now } : Activity).id ≠
          ({ id := now + 1, task_id := t.id, action := "updated"
             by_ := byOf u.updated_by
             note := match dd with
               | some v => "Due date set to " ++ toString v
               | none => "Due date removed"
             created_at := now } : Activity).id ∧
        t'.status = s ∧ t'.due_date = dd) := by
  have hsb : (s != "") = true := by simpa using hs1
  have hsb2 : (s != t.status) = true := by simpa using hs2
  have hmoved : statusChange t u = some s := by
    simp [statusChange, hs, hsb, hsb2]
  refine ⟨?_, ?_, ?_⟩
  · intro v d' t' hok
    rw [updateTask, hfind] at hok
    obtain ⟨_, rfl⟩ := Prod.mk.injEq .. ▸ Except.ok.inj hok
    rfl
  · intro hdd
    have hdue : dueChange t u = none := by
      rcases hdd with h | h <;> simp [dueChange, h]
    rw [updateTask, hfind]
    simp only [hmoved, hdue]
    refine ⟨_, _, rfl, ?_, ?_⟩
    · simp
    · simp [applyUpdates, hs]
  · intro dd hdd hne
    have hdue : dueChange t u = some dd := by
      have : (dd != t.due_date) = true := by simpa using hne
      simp [dueChange, hdd, this]
    rw [updateTask, hfind]
    simp only [hmoved, hdue]
    refine ⟨_, _, rfl, ?_, ?_, ?_, ?_⟩
    · simp
    · show (now : Int) ≠ now + 1
      omega
    · simp [applyUpdates, hs]
    · simp [applyUpdates, hdd]

/-- Witness for `updateTask_moved_and_updated`: moving `exTask` from `todo`
to `done` while clearing its due date. -/
theorem updateTask_moved_and_updated_witness :
    (∀ (v : UpdateBody) d' t',
      updateTask exData "t1" v 7 = .ok (d', t') → t'.updated_at = 7) ∧
    (({ status := some "done", due_date := some none } : UpdateBody).due_date
        = none ∨
      ({ status := some "done", due_date := some none } : UpdateBody).due_date
        = some exTask.due_date →
      ∃ d' t', updateTask exData "t1"
          { status := some "done", due_date := some none } 7 = .ok (d', t') ∧
        d'.activity = exData.activity ++
          [{ id := 7, task_id := exTask.id, action := "moved"
             from_status := some exTask.status, to_status := some "done"
             by_ := byOf ({ status := some "done", due_date := some none } :
               UpdateBody).updated_by
             note := "Moved from " ++ exTask.status ++ " to " ++ "done"
             created_at := 7 }] ∧
        t'.status = "done") ∧
    (∀ dd, ({ status := some "done", due_date := some none } :
        UpdateBody).due_date = some dd → dd ≠ exTask.due_date →
      ∃ d' t', updateTask exData "t1"
          { status := some "done", due_date := some none } 7 = .ok (d', t') ∧
        d'.activity = exData.activity ++
          [{ id := 7, task_id := exTask.id, action := "moved"
             from_status := some exTask.status, to_status := some "done"
             by_ := byOf ({ status := some "done", due_date := some none } :
               UpdateBody).updated_by
             note := "Moved from " ++ exTask.status ++ " to " ++ "done"
             created_at := 7 },
           { id := 7 + 1, task_id := exTask.id, action := "updated"
             by_ := byOf ({ status := some "done", due_date := some none } :
               UpdateBody).updated_by
             note := match dd with
               | some v => "Due date set to " ++ toString v
               | none => "Due date removed"
             created_at := 7 }] ∧
        ({ id := 7, task_id := exTask.id, action := "moved"
           from_status := some exTask.status, to_status := some "done"
           by_ := byOf ({ status := some "done", due_date := some none } :
             UpdateBody).updated_by
           note := "Moved from " ++ exTask.status ++ " to " ++ "done"
           created_at := 7 } : Activity).id ≠
          ({ id := 7 + 1, task_id := exTask.id, action := "updated"
             by_ := byOf ({ status := some "done", due_date := some none } :
               UpdateBody).updated_by
             note := match dd with
               | some v => "Due date set to " ++ toString v
               | none => "Due date removed"
             created_at := 7 } : Activity).id ∧
        t'.status = "done" ∧ t'.due_date = dd) :=
  updateTask_moved_and_updated exData "t1"
    { status := some "done", due_date := some none } 7 exTask rfl "done"
    rfl (by decide) (by decide)

end Taskboard

namespace Taskboard

/-- C5: archiving an active task and then restoring it puts it back in the
active collection with `archived_at` absent, `updated_at` refreshed to the
restore time and every other field unchanged, and its activity grows by
exactly the two entries `archived` then `restored`; moreover, while the id
is not in the archived collection (as in the starting snapshot, where the
task is active), `restoreTask` fails with NotFound. -/
theorem archive_then_restore (d : Data) (id : String) (b1 b2 : Option String)
    (now1 now2 : Int) (t : Task) (rest : List Task)
    (h1 : extractFirst (fun x => x.id == id) d.tasks = some (t, rest))
    (h2 : ∀ s ∈ d.archived, (s.id == id) = false) :
    restoreTask d id b2 now2 = .error .notFound ∧
    ∃ d1 t1 d2 t2,
      archiveTask d id b1 now1 = .ok (d1, t1) ∧
      restoreTask d1 id b2 now2 = .ok (d2, t2) ∧
      t2 ∈ d2.tasks ∧
      t2.archived_at = none ∧ t2.updated_at = now2 ∧
      t2.id = t.id ∧ t2.title = t.title ∧
      t2.description = t.description ∧ t2.status = t.status ∧
      t2.priority = t.priority ∧ t2.project = t.project ∧
      t2.assignee = t.assignee ∧ t2.due_date = t.due_date ∧
      t2.created_at = t.created_at ∧ t2.created_by = t.created_by ∧
      d2.tasks = rest ++ [t2] ∧ d2.archived = d.archived ∧
      activityFor d2 id = activityFor d id ++
        [{ id := now1, task_id := t.id, action := "archived"
           by_ := byOf b1, note := "Task archived", created_at := now1 },
         { id := now2, task_id := t.id, action := "restored"
           by_ := byOf b2, note := "Task restored from archive"
           created_at := now2 }] ∧
      (activityFor d2 id).length = (activityFor d id).length + 2 := by
  have htid : (t.id == id) = true :=
    (extractFirst_eq_some (fun x => x.id == id) d.tasks t rest h1).1
  have hrest : extractFirst (fun x => x.id == id) d.archived = none :=
    (extractFirst_eq_none_iff _ d.archived).mpr h2
  constructor
  · rw [restoreTask, hrest]
  · have harchEq : archiveTask d id b1 now1 = .ok
        ({ d with tasks := rest
                  archived := d.archived ++
                    [{ t with archived_at := some now1, updated_at := now1 }]
                  activity := d.activity ++
                    [{ id := now1, task_id := t.id, action := "archived"
                       by_ := byOf b1, note := "Task archived"
                       created_at := now1 }] },
          { t with archived_at := some now1, updated_at := now1 }) := by
      rw [archiveTask, h1]
    have hext2 : extractFirst (fun x => x.id == id)
        (d.archived ++ [{ t with archived_at := some now1
                                 updated_at := now1 }]) =
        some ({ t with archived_at := some now1, updated_at := now1 },
          d.archived) :=
      extractFirst_append_singleton _ d.archived _ h2 htid
    have hrestEq : restoreTask
        { d with tasks := rest
                 archived := d.archived ++
                   [{ t with archived_at := some now1, updated_at := now1 }]
                 activity := d.activity ++
                   [{ id := now1, task_id := t.id, action := "archived"
                      by_ := byOf b1, note := "Task archived"
                      created_at := now1 }] } id b2 now2 = .ok
        ({ d with
            tasks := rest ++
              [{ t with archived_at := none, updated_at := now2 }]
            activity := d.activity ++
              [{ id := now1, task_id := t.id, action := "archived"
                 by_ := byOf b1, note := "Task archived"
                 created_at := now1 }] ++
              [{ id := now2, task_id := t.id, action := "restored"
                 by_ := byOf b2, note := "Task restored from archive"
                 created_at := now2 }] },
         { t with archived_at := none, updated_at := now2 }) := by
      rw [restoreTask]
      dsimp only
      rw [hext2]
    refine ⟨_, _, _, _, harchEq, hrestEq, ?_, rfl, rfl, rfl, rfl, rfl,
      rfl, rfl, rfl, rfl, rfl, rfl, rfl, rfl, rfl, ?_, ?_⟩
    · simp
    · show (d.activity ++ _ ++ _).filter (fun a => a.task_id == id) = _
      rw [List.filter_append, List.filter_append]
      simp [activityFor, htid]
    · show ((d.activity ++ _ ++ _).filter
        (fun a => a.task_id == id)).length = _
      rw [List.filter_append, List.filter_append]
      simp [activityFor, htid]

/-- Witness for `archive_then_restore`: archiving `exTask` at time 11 and
restoring it at time 12. -/
theorem archive_then_restore_witness :
    restoreTask exData "t1" (some "bob") 12 = .error .notFound ∧
    ∃ d1 t1 d2 t2,
      archiveTask exData "t1" (some "ann") 11 = .ok (d1, t1) ∧
      restoreTask d1 "t1" (some "bob") 12 = .ok (d2, t2) ∧
      t2 ∈ d2.tasks ∧
      t2.archived_at = none ∧ t2.updated_at = 12 ∧
      t2.id = exTask.id ∧ t2.title = exTask.title ∧
      t2.description = exTask.description ∧ t2.status = exTask.status ∧
      t2.priority = exTask.priority ∧ t2.project = exTask.project ∧
      t2.assignee = exTask.assignee ∧ t2.due_date = exTask.due_date ∧
      t2.created_at = exTask.created_at ∧
      t2.created_by = exTask.created_by ∧
      d2.tasks = [] ++ [t2] ∧ d2.archived = exData.archived ∧
      activityFor d2 "t1" = activityFor exData "t1" ++
        [{ id := 11, task_id := exTask.id, action := "archived"
           by_ := byOf (some "ann"), note := "Task archived"
           created_at := 11 },
         { id := 12, task_id := exTask.id, action := "restored"
           by_ := byOf (some "bob"), note := "Task restored from archive"
           created_at := 12 }] ∧
      (activityFor d2 "t1").length = (activityFor exData "t1").length + 2 :=
  archive_then_restore exData "t1" (some "ann") (some "bob") 11 12 exTask []
    rfl (by simp [exData])

end Taskboard

namespace Taskboard

/-- C6: once a document path is linked to a task, a second `linkDocument`
call with the same path fails with Conflict, and since the error reply is
sent before any `saveData`, the persisted snapshot — in particular the
task's link list — is exactly what it was before the failed attempt. -/
theorem linkDocument_duplicate_conflict (d d1 : Data) (id p : String)
    (ti ty b1 ti2 ty2 b2 : Option String) (n1 n2 : Int) (l : DocLink)
    (h : linkDocument d id (some p) ti ty b1 n1 = .ok (d1, l)) :
    linkDocument d1 id (some p) ti2 ty2 b2 n2 = .error .conflict ∧
    stateAfter d1 (linkDocument d1 id (some p) ti2 ty2 b2 n2) = d1 := by
  rw [linkDocument] at h
  cases hfind : d.tasks.find? (fun t => t.id == id) with
  | none =>
    rw [hfind] at h
    exact absurd h (by simp)
  | some t =>
    rw [hfind] at h
    dsimp only [Option.getD_some] at h
    by_cases hp : (p == "") = true
    · rw [if_pos hp] at h
      exact absurd h (by simp)
    · rw [if_neg hp] at h
      by_cases hdup : (((d.taskDocuments.getD []).lookup id).getD []).any
          (fun x => x.path == p) = true
      · rw [if_pos hdup] at h
        exact absurd h (by simp)
      · rw [if_neg hdup] at h
        obtain ⟨hd1, _hl⟩ := Prod.mk.inj (Except.ok.inj h)
        have hany : ((((d.taskDocuments.getD []).lookup id).getD []) ++
            [({ path := p, title := ti, type := ty, linkedAt := n1 } :
              DocLink)]).any (fun x => x.path == p) = true := by
          simp
        rw [← hd1]
        rw [linkDocument]
        dsimp only [Option.getD_some]
        rw [hfind]
        dsimp only [Option.getD_some]
        rw [if_neg hp]
        rw [lookup_setDocs]
        dsimp only [Option.getD_some]
        rw [if_pos hany]
        exact ⟨rfl, rfl⟩

/-- Witness for `linkDocument_duplicate_conflict`: linking `doc.md` to
`exTask` twice. -/
theorem linkDocument_duplicate_conflict_witness :
    linkDocument exLinked "t1" (some "doc.md") none none none 7
      = .error .conflict ∧
    stateAfter exLinked
      (linkDocument exLinked "t1" (some "doc.md") none none none 7)
      = exLinked :=
  linkDocument_duplicate_conflict exData exLinked "t1" "doc.md" none none
    none none none none 5 7 exDocLink rfl

end Taskboard

namespace Taskboard

/-- C4: `listTasks` returns a permutation of the filtered tasks that is
sorted by the strict precedence of the spec — overdue tasks first, then
ascending urgency rank (`urgent=1, high=2, normal=3` also for unknown,
`low=4`), then `updated_at` descending; in particular a task due 2020-01-01
with priority `low` sorts before a task due 2999-01-01 with priority
`urgent` on a 2026 day. -/
theorem listTasks_ordering (d : Data) (project status : Option String)
    (nowStart : Int) :
    (listTasks d project status nowStart).Perm
      (filterTasks d project status) ∧
    (listTasks d project status nowStart).Pairwise
      (specPrecedes nowStart) ∧
    listTasks exListData none none exNow =
      [taskOverdueLow, taskFutureUrgent] := by
  refine ⟨List.mergeSort_perm _ _, ?_, ?_⟩
  · exact (List.sorted_mergeSort
      (fun a b c => taskLE_trans nowStart a b c)
      (taskLE_total nowStart)
      (filterTasks d project status)).imp
      (fun h => taskLE_imp_specPrecedes nowStart _ _ h)
  · simp [listTasks, filterTasks, exListData, List.mergeSort, taskLE,
      lexLE, sortKey, overdueFlag, priorityRank, taskOverdueLow,
      taskFutureUrgent, exTask, exNow]

end Taskboard
